import Mathlib

/-!
Verification of the jurisbot2 STF-jurisprudence scraper.

This file gives a shallow embedding of the HTML-scraping-and-normalization
pipeline of the repository (files `sem_smolagents.py` and `exemplo.py`):
the search-URL builders, the result-item extraction loop of
`buscar_jurisprudencia` (both the `STFScraper` variant with summary cap 500
and the `STFScraperSimples` variant with cap 300), the docket-number regex
`[A-Z]{2,4}\s\d+`, and the detail lookup `obter_detalhes_processo`.

HTML documents are modelled as a tree of element/text nodes; the
BeautifulSoup operations the source relies on (`select`, `select_one` with
the specific CSS selectors appearing in the source, `get_text(strip=True)`,
`get(attr, default)`) are embedded directly. Network transport is outside
the scraping core: the single place the detail path fetches a second page
is modelled by a function parameter mapping the constructed URL to the
parsed detail document.
-/

/-! ## Python string primitives -/

/-- The characters Python `str.strip()` removes and `\s` matches on `str`
patterns: ASCII whitespace plus the Unicode whitespace characters. -/
def pyIsSpace (c : Char) : Bool :=
  c ∈ [' ', '\t', '\n', '\r', '\x0b', '\x0c',
       '\x1c', '\x1d', '\x1e', '\x1f', '\x85', '\xa0',
       '\u1680', '\u2000', '\u2001', '\u2002', '\u2003', '\u2004',
       '\u2005', '\u2006', '\u2007', '\u2008', '\u2009', '\u200a',
       '\u2028', '\u2029', '\u202f', '\u205f', '\u3000']

/-- The regex character class `[A-Z]` (ASCII uppercase only, as in the
source pattern). -/
def pyIsUpper (c : Char) : Bool :=
  'A' ≤ c && c ≤ 'Z'

/-- Decimal digits `0-9`. (Python `\d` on `str` also matches non-ASCII
decimal digits; the pages and every claim involved use ASCII digits, so the
embedding fixes the ASCII range.) -/
def pyIsDigit (c : Char) : Bool :=
  '0' ≤ c && c ≤ '9'

/-- Python `str.strip()`: drop leading and trailing whitespace. -/
def pyStrip (s : String) : String :=
  String.mk (((s.data.dropWhile pyIsSpace).reverse.dropWhile pyIsSpace).reverse)

/-- Case folding as used on the detail-page metadata labels
(`label.lower()`): ASCII letters plus the Latin-1 uppercase letters, which
covers every character occurring in the labels the source dispatches on
("Relator", "Julgamento", "Publicação", "Órgão Julgador"). -/
def pyToLowerChar (c : Char) : Char :=
  if 'A' ≤ c && c ≤ 'Z' then Char.ofNat (c.toNat + 32)
  else if 0xc0 ≤ c.toNat && c.toNat ≤ 0xde && c.toNat != 0xd7 then Char.ofNat (c.toNat + 32)
  else c

/-- Python `str.lower()` restricted as described at `pyToLowerChar`. -/
def pyLower (s : String) : String :=
  String.mk (s.data.map pyToLowerChar)

/-- Python `needle in hay` substring test. -/
def containsSub (hay needle : String) : Bool :=
  decide (needle.data <:+: hay.data)

/-- Python slicing `s[:n]` (by code point, as Python indexes `str`). -/
def pyTake (s : String) (n : Nat) : String :=
  String.mk (s.data.take n)

/-- Scan for `str.replace`: replace each non-overlapping occurrence of
`pat` from the left; the counter skips the remainder of a matched
occurrence. -/
def pyReplaceGo (pat rep : List Char) : Nat → List Char → List Char
  | 0, [] => []
  | 0, c :: rest =>
    if pat.isPrefixOf (c :: rest) then rep ++ pyReplaceGo pat rep (pat.length - 1) rest
    else c :: pyReplaceGo pat rep 0 rest
  | _ + 1, [] => []
  | k + 1, _ :: rest => pyReplaceGo pat rep k rest

/-- Python `s.replace(pat, rep)` for a nonempty `pat` (the source only
replaces the nonempty labels `"Relator:"` and `"Julgamento:"`). -/
def pyReplace (s pat rep : String) : String :=
  String.mk (pyReplaceGo pat.data rep.data 0 s.data)

/-- Splitting scan: `acc` holds the current fragment reversed. -/
def pySplitGo (p : Char → Bool) : List Char → List Char → List String
  | [], acc => [String.mk acc.reverse]
  | c :: rest, acc =>
    if p c then String.mk acc.reverse :: pySplitGo p rest []
    else pySplitGo p rest (c :: acc)

/-- Split a string at the characters satisfying `p` (empty fragments
included, as `String.split` produces them). -/
def pySplit (p : Char → Bool) (s : String) : List String :=
  pySplitGo p s.data []

/-! ## HTML document model

A parsed document tree in the sense of BeautifulSoup: element nodes carry a
tag name, an attribute list and children; text nodes carry their string.
-/

mutual
inductive Node where
  | elem (tag : String) (attrs : List (String × String)) (children : NodeList)
  | text (s : String)
deriving Repr
inductive NodeList where
  | nil
  | cons (head : Node) (tail : NodeList)
deriving Repr
end

/-- Build a child list from an ordinary list (used to write fixtures). -/
def nodeListOf : List Node → NodeList
  | [] => .nil
  | n :: rest => .cons n (nodeListOf rest)

/-- Attribute lookup (`tag.get(name)` without default). -/
def attrOf (n : Node) (key : String) : Option String :=
  match n with
  | .elem _ attrs _ => (attrs.find? (fun p => p.1 = key)).map (fun p => p.2)
  | .text _ => none

/-- Attribute lookup with `""` default (`tag.get(name, "")`). -/
def attrD (n : Node) (key : String) : String :=
  (attrOf n key).getD ""

/-- The whitespace-separated class list BeautifulSoup derives from the
`class` attribute. -/
def classList (n : Node) : List String :=
  (pySplit pyIsSpace (attrD n "class")).filter (fun s => s ≠ "")

/-- CSS type selector `tag`. -/
def isTag (t : String) (n : Node) : Bool :=
  match n with
  | .elem t2 _ _ => t2 = t
  | .text _ => false

/-- CSS selector `tag.cls`. -/
def tagClass (t cls : String) (n : Node) : Bool :=
  isTag t n && (classList n).contains cls

/-- Children of an element node (empty for text nodes). -/
def elemChildren (n : Node) : NodeList :=
  match n with
  | .elem _ _ cs => cs
  | .text _ => .nil

/-- All element nodes of a forest in document (pre-) order, each node
followed by its descendants. -/
def descList : NodeList → List Node
  | .nil => []
  | .cons (.text _) rest => descList rest
  | .cons (.elem t a cs) rest => .elem t a cs :: (descList cs ++ descList rest)

/-- `root.select(sel)` for a simple selector: all matching element
descendants of `root` (excluding `root` itself), in document order. -/
def selectAll (p : Node → Bool) (root : Node) : List Node :=
  (descList (elemChildren root)).filter p

/-- `root.select_one(sel)` for a simple selector. -/
def selectOne (p : Node → Bool) (root : Node) : Option Node :=
  (selectAll p root).head?

/-- Matching elements for a descendant-combinator selector `A B`: elements
satisfying `pB` that have an ancestor satisfying `pA` (the search root
itself may serve as that ancestor), in document order. The flag records
whether an `A`-ancestor has been passed. -/
def collectRel (pA pB : Node → Bool) : Bool → NodeList → List Node
  | _, .nil => []
  | underA, .cons (.text _) rest => collectRel pA pB underA rest
  | underA, .cons (.elem t a cs) rest =>
    (if underA && pB (.elem t a cs) then [Node.elem t a cs] else [])
      ++ collectRel pA pB (underA || pA (.elem t a cs)) cs
      ++ collectRel pA pB underA rest

/-- `root.select_one("A B")` for a descendant-combinator selector. -/
def selectRelOne (pA pB : Node → Bool) (root : Node) : Option Node :=
  (collectRel pA pB (pA root) (elemChildren root)).head?

/-- The raw text fragments (navigable strings) of a forest, in document
order. -/
def fragList : NodeList → List String
  | .nil => []
  | .cons (.text s) rest => s :: fragList rest
  | .cons (.elem _ _ cs) rest => fragList cs ++ fragList rest

/-- `tag.get_text(strip=True)`: each text fragment stripped, concatenated. -/
def getTextStrip (n : Node) : String :=
  String.join ((fragList (.cons n .nil)).map pyStrip)

/-- `tag.text` / `tag.get_text()` without stripping, as the `:contains()`
pseudo-class tests it. -/
def rawText (n : Node) : String :=
  String.join (fragList (.cons n .nil))

/-! ## Query Builder (`sem_smolagents.py` lines 17-18, 43-45, 147-149;
`exemplo.py` lines 14-15, 29-30) -/

def BASE_URL : String := "https://jurisprudencia.stf.jus.br"

def SEARCH_URL : String := BASE_URL ++ "/pages/search"

/-- One byte of `urllib.parse.quote` output: bytes in the always-safe set
(ASCII letters, digits, `_.-~`) or in the default `safe="/"` set pass
through; every other byte is percent-encoded. -/
def isUrlSafeByte (b : UInt8) : Bool :=
  (65 ≤ b.toNat && b.toNat ≤ 90) || (97 ≤ b.toNat && b.toNat ≤ 122) ||
    (48 ≤ b.toNat && b.toNat ≤ 57) ||
    b.toNat ∈ [95, 46, 45, 126, 47]

def hexDigitChar (n : Nat) : Char :=
  if n < 10 then Char.ofNat (48 + n) else Char.ofNat (55 + n)

def quoteByte (b : UInt8) : String :=
  if isUrlSafeByte b then String.singleton (Char.ofNat b.toNat)
  else String.mk ['%', hexDigitChar (b.toNat / 16), hexDigitChar (b.toNat % 16)]

/-- `urllib.parse.quote(s)`: percent-encode the UTF-8 bytes of `s`. -/
def urlQuote (s : String) : String :=
  String.join (s.toUTF8.toList.map quoteByte)

/-- The search URL built by `buscar_jurisprudencia` (f-string at
`sem_smolagents.py` line 45 and `exemplo.py` line 30). -/
def searchUrlOf (query : String) (maxResults : Nat) : String :=
  SEARCH_URL ++ "?base=acordaos&sinonimo=true&plural=true&page=1&pageSize="
    ++ toString maxResults ++ "&sort=_score&sortBy=desc&query=" ++ urlQuote query

/-- The detail-lookup URL built by `obter_detalhes_processo`
(`sem_smolagents.py` lines 148-149): the docket number is wrapped in
literal double quotes before encoding and `pageSize` is the literal `1`. -/
def obterDetalhesUrl (numero_processo : String) : String :=
  SEARCH_URL ++ "?base=acordaos&sinonimo=true&plural=true&page=1&pageSize=1&sort=_score&sortBy=desc&query="
    ++ urlQuote ("\"" ++ numero_processo ++ "\"")

/-! ## The docket-number regex `([A-Z]{2,4}\s\d+)`
(`sem_smolagents.py` lines 84-87, `exemplo.py` lines 64-67)

`re.search` semantics for this pattern: attempt a match at each position
from the left; at a position the greedy `{2,4}` tries four uppercase
letters, then three, then two; after them one whitespace character and
then a greedy nonempty run of digits.
-/

/-- Match `[A-Z]{k}\s\d+` at the head of the character list, returning the
matched characters. -/
def tryLen (k : Nat) (cs : List Char) : Option (List Char) :=
  let u := cs.take k
  if u.length = k && u.all pyIsUpper then
    match cs.drop k with
    | [] => none
    | c :: rest =>
      if pyIsSpace c then
        let d := rest.takeWhile pyIsDigit
        if d.isEmpty then none else some (u ++ c :: d)
      else none
  else none

/-- Match the pattern at the head of the list: greedy `{2,4}` tries the
counts 4, 3, 2 in that order. -/
def tryMatchAt (cs : List Char) : Option (List Char) :=
  match tryLen 4 cs with
  | some r => some r
  | none =>
    match tryLen 3 cs with
    | some r => some r
    | none => tryLen 2 cs

/-- `re.search`: the leftmost position admitting a match wins. -/
def searchDocket : List Char → Option (List Char)
  | [] => none
  | c :: rest =>
    match tryMatchAt (c :: rest) with
    | some r => some r
    | none => searchDocket rest

/-- `numero_processo` extraction from the title: `processo_match.group(1)`
of the first match, or `""` when the pattern does not occur. -/
def extractDocket (titulo : String) : String :=
  match searchDocket titulo.data with
  | some r => String.mk r
  | none => ""

/-- The declarative reading of the pattern: positions `i ≤ · < i + k` hold
uppercase letters (`2 ≤ k ≤ 4`), position `i + k` a whitespace character,
and the `m ≥ 1` following positions digits. -/
def docketMatchGroups (cs : List Char) (i k m : Nat) : Prop :=
  ∃ pre u c d post,
    cs = pre ++ u ++ c :: (d ++ post) ∧
    pre.length = i ∧ u.length = k ∧ d.length = m ∧
    2 ≤ k ∧ k ≤ 4 ∧ 1 ≤ m ∧
    (∀ x ∈ u, pyIsUpper x) ∧ pyIsSpace c ∧ (∀ x ∈ d, pyIsDigit x)

/-! ## The label-anchored metadata regexes of `exemplo.py`
(lines 75, 81): `re.search(r"Label:\s*([^,]+)", text)`, group 1.

After the literal label, the greedy `\s*` consumes the full whitespace run
and backtracks one character at a time until the nonempty non-comma run
`([^,]+)` succeeds.
-/

/-- Greedy-with-backtracking tail of the label pattern: having consumed up
to `k` whitespace characters of `rest`, take the maximal nonempty non-comma
run, backtracking on `k` when it is empty. -/
def tryGroupFrom (rest : List Char) : Nat → Option (List Char)
  | 0 =>
    let g := rest.takeWhile (fun c => c ≠ ',')
    if g.isEmpty then none else some g
  | k + 1 =>
    let g := (rest.drop (k + 1)).takeWhile (fun c => c ≠ ',')
    if g.isEmpty then tryGroupFrom rest k else some g

/-- Match `label\s*([^,]+)` at the head of the list, returning group 1. -/
def tryLabelAt (label : List Char) (cs : List Char) : Option (List Char) :=
  if label.isPrefixOf cs then
    let rest := cs.drop label.length
    tryGroupFrom rest (rest.takeWhile pyIsSpace).length
  else none

/-- `re.search` scan for the label pattern. -/
def searchLabel (label : List Char) : List Char → Option (List Char)
  | [] => none
  | c :: rest =>
    match tryLabelAt label (c :: rest) with
    | some r => some r
    | none => searchLabel label rest

/-- `exemplo.py` lines 73-83: group 1 of the first match of
`Label:\s*([^,]+)`, stripped; `""` when the pattern does not occur. -/
def labelExtract (label : String) (text : String) : String :=
  match searchLabel label.data text.data with
  | some r => pyStrip (String.mk r)
  | none => ""

/-! ## Summary truncation (`sem_smolagents.py` line 113 with cap 500,
`exemplo.py` line 97 with cap 300) -/

/-- `ementa[:cap] + "..." if len(ementa) > cap else ementa`. -/
def truncateEmenta (cap : Nat) (ementa : String) : String :=
  if cap < ementa.length then pyTake ementa cap ++ "..." else ementa

/-! ## SearchRecord and the result-item extraction loop
(`sem_smolagents.py` lines 60-126, `exemplo.py` lines 40-105)

The loop body sits in a `try` block: the title/link check skips the item by
`continue`; any exception raised while extracting the remaining fields is
caught by the `except` clause, which also skips the item by `continue`. The
four optional-field extraction blocks are taken as a parameter so that both
scraper variants, and hypothetical raising extractors, instantiate the same
loop; `Except` models raising.
-/

structure Resultado where
  titulo : String
  numero_processo : String
  relator : String
  data_julgamento : String
  ementa : String
  link : String
deriving Repr, DecidableEq

/-- The four optional-field extraction blocks of the loop body. `numero`
reads the already-extracted title text; the others read the item node. -/
structure OptExt where
  numero : String → Except Unit String
  relator : Node → Except Unit String
  dataJulgamento : Node → Except Unit String
  ementa : Node → Except Unit String

/-- `item.select_one("h4.search-result-title")`. -/
def titleElemOf (item : Node) : Option Node :=
  selectOne (tagClass "h4" "search-result-title") item

/-- `titulo_elem.select_one("a") if titulo_elem else None`. -/
def linkAnchorOf (tEl : Node) : Option Node :=
  selectOne (isTag "a") tEl

/-- The title/link resolution of the loop body (`if not titulo_elem or not
link_elem: continue`). -/
def titleLinkOf (item : Node) : Option (Node × Node) :=
  match titleElemOf item with
  | none => none
  | some tEl =>
    match linkAnchorOf tEl with
    | none => none
    | some lEl => some (tEl, lEl)

/-- The `try` body for one item: `Except.ok none` is the `continue` on a
missing title or link, `Except.error` an exception escaping to the
`except` clause, `Except.ok (some r)` the `resultados.append(...)`. -/
def processItem (cap : Nat) (ext : OptExt) (item : Node) :
    Except Unit (Option Resultado) :=
  match titleLinkOf item with
  | none => .ok none
  | some (tEl, lEl) =>
    let titulo := getTextStrip tEl
    let link := BASE_URL ++ attrD lEl "href"
    match ext.numero titulo with
    | .error e => .error e
    | .ok numero_processo =>
      match ext.relator item with
      | .error e => .error e
      | .ok relator =>
        match ext.dataJulgamento item with
        | .error e => .error e
        | .ok data_julgamento =>
          match ext.ementa item with
          | .error e => .error e
          | .ok ementa =>
            .ok (some { titulo, numero_processo, relator, data_julgamento,
                        ementa := truncateEmenta cap ementa, link })

/-- One item with the surrounding `except Exception: continue`: an
exception yields no record, exactly like the title/link `continue`. -/
def processItemCaught (cap : Nat) (ext : OptExt) (item : Node) :
    Option Resultado :=
  match processItem cap ext item with
  | .ok r => r
  | .error _ => none

/-- `for item in result_items[:max_results]: ...` with the appends in
order. -/
def processLoop (cap : Nat) (ext : OptExt) : List Node → List Resultado
  | [] => []
  | item :: rest =>
    match processItemCaught cap ext item with
    | none => processLoop cap ext rest
    | some r => r :: processLoop cap ext rest

/-- `soup.select("div.search-result-item")`. -/
def selectItems (soup : Node) : List Node :=
  selectAll (tagClass "div" "search-result-item") soup

/-- `item.select_one("div.search-result-metadata span:contains("Relator:")")`
(`sem_smolagents.py` line 91). -/
def relatorElemOf (item : Node) : Option Node :=
  selectRelOne (tagClass "div" "search-result-metadata")
    (fun n => isTag "span" n && containsSub (rawText n) "Relator:") item

/-- `item.select_one("div.search-result-metadata span:contains("Julgamento:")")`
(`sem_smolagents.py` line 97). -/
def dataElemOf (item : Node) : Option Node :=
  selectRelOne (tagClass "div" "search-result-metadata")
    (fun n => isTag "span" n && containsSub (rawText n) "Julgamento:") item

/-- `item.select_one("div.search-result-text")`. -/
def ementaElemOf (item : Node) : Option Node :=
  selectOne (tagClass "div" "search-result-text") item

/-- The raw summary text before truncation (`ementa = ""` overwritten when
the element is present). -/
def rawEmentaOf (item : Node) : String :=
  match ementaElemOf item with
  | some e => getTextStrip e
  | none => ""

/-- The optional-field extraction blocks of `STFScraper.buscar_jurisprudencia`
(`sem_smolagents.py` lines 83-105): regex on the title for the docket
number; `span:contains` selection, label removal and strip for the
reporting justice and judgment date; text of `div.search-result-text` for
the summary. None of them raises. -/
def semExtractors : OptExt where
  numero := fun titulo => .ok (extractDocket titulo)
  relator := fun item => .ok (match relatorElemOf item with
    | some el => pyStrip (pyReplace (getTextStrip el) "Relator:" "")
    | none => "")
  dataJulgamento := fun item => .ok (match dataElemOf item with
    | some el => pyStrip (pyReplace (getTextStrip el) "Julgamento:" "")
    | none => "")
  ementa := fun item => .ok (rawEmentaOf item)

/-- `item.select_one("div.search-result-metadata")` text (`exemplo.py`
lines 70-71). -/
def metadataTextOf (item : Node) : String :=
  match selectOne (tagClass "div" "search-result-metadata") item with
  | some d => getTextStrip d
  | none => ""

/-- The optional-field extraction blocks of
`STFScraperSimples.buscar_jurisprudencia` (`exemplo.py` lines 63-89): the
docket regex on the title; the label-anchored regexes `Relator:\s*([^,]+)`
and `Julgamento:\s*([^,]+)` over the metadata text; the summary as in the
other variant. None of them raises. -/
def exemploExtractors : OptExt where
  numero := fun titulo => .ok (extractDocket titulo)
  relator := fun item => .ok (labelExtract "Relator:" (metadataTextOf item))
  dataJulgamento := fun item => .ok (labelExtract "Julgamento:" (metadataTextOf item))
  ementa := fun item => .ok (rawEmentaOf item)

/-- The Result Extractor of `STFScraper` (summary cap 500). -/
def extractSearchResultsSem (soup : Node) (maxResults : Nat) : List Resultado :=
  processLoop 500 semExtractors ((selectItems soup).take maxResults)

/-- The Result Extractor of `STFScraperSimples` (summary cap 300). -/
def extractSearchResultsExemplo (soup : Node) (maxResults : Nat) : List Resultado :=
  processLoop 300 exemploExtractors ((selectItems soup).take maxResults)

/-- Outcome of the search wrapper: either the fallback generator is
invoked (external collaborator, modelled as a signal carrying its
arguments) or a result list is returned. -/
inductive SearchOutcome where
  | fallbackSearch (query : String) (maxResults : Nat)
  | results (rs : List Resultado)
deriving Repr, DecidableEq

/-- `STFScraper.buscar_jurisprudencia` after a successful request
(`sem_smolagents.py` lines 57-126): no structural items or no surviving
records invoke `_fallback_search`; otherwise the records are returned. -/
def buscarJurisprudencia (soup : Node) (query : String) (maxResults : Nat) :
    SearchOutcome :=
  let result_items := selectItems soup
  if result_items.isEmpty then .fallbackSearch query maxResults
  else
    let resultados := processLoop 500 semExtractors (result_items.take maxResults)
    if resultados.isEmpty then .fallbackSearch query maxResults
    else .results resultados

/-! ## DetailRecord and `obter_detalhes_processo`
(`sem_smolagents.py` lines 135-244)

The method first queries the search endpoint for the docket number and
inspects that search-results page: a missing `div.search-result-item`, or a
missing `h4.search-result-title a` inside it, invokes `_fallback_processo`.
Otherwise it follows the link, parses the detail page and extracts the
detail fields; every detail-page container is optional and the assembled
record is returned unconditionally. The second HTTP GET is modelled by the
parameter `docOf`, mapping the constructed document URL to the parsed
detail page.
-/

structure Detalhes where
  numero_processo : String
  titulo : String
  relator : String
  data_julgamento : String
  data_publicacao : String
  orgao_julgador : String
  ementa : String
  decisao : String
  partes : List (String × String)
  link : String
deriving Repr, DecidableEq

inductive DetalhesOutcome where
  | fallbackProc (numero_processo : String)
  | ok (d : Detalhes)
deriving Repr, DecidableEq

/-- One pass of the metadata loop (`sem_smolagents.py` lines 197-214):
label/value sub-elements both required, then the case-insensitive substring
dispatch of the `if`/`elif` chain. -/
def applyMetadataItem (d : Detalhes) (item : Node) : Detalhes :=
  match selectOne (tagClass "div" "document-metadata-item-label") item,
        selectOne (tagClass "div" "document-metadata-item-value") item with
  | some labelEl, some valueEl =>
    let label := pyLower (getTextStrip labelEl)
    let value := getTextStrip valueEl
    if containsSub label "relator" then { d with relator := value }
    else if containsSub label "julgamento" then { d with data_julgamento := value }
    else if containsSub label "publicação" then { d with data_publicacao := value }
    else if containsSub label "órgão julgador" then { d with orgao_julgador := value }
    else d
  | _, _ => d

/-- One pass of the parties loop (`sem_smolagents.py` lines 230-238): both
the role and the name sub-element must be present. -/
def applyParteItem (ps : List (String × String)) (item : Node) :
    List (String × String) :=
  match selectOne (tagClass "div" "document-parte-item-tipo") item,
        selectOne (tagClass "div" "document-parte-item-nome") item with
  | some tipoEl, some nomeEl => ps ++ [(getTextStrip tipoEl, getTextStrip nomeEl)]
  | _, _ => ps

/-- Field extraction from the parsed detail page (`sem_smolagents.py`
lines 176-240): the record starts with every extracted field empty and each
optional container, when present, fills its field. No container is
required. -/
def extractDetalhes (doc_soup : Node) (numero_processo : String)
    (documento_url : String) : Detalhes :=
  let d0 : Detalhes :=
    { numero_processo, titulo := "", relator := "", data_julgamento := "",
      data_publicacao := "", orgao_julgador := "", ementa := "", decisao := "",
      partes := [], link := documento_url }
  let d1 := match selectOne (tagClass "h1" "document-title") doc_soup with
    | some el => { d0 with titulo := getTextStrip el }
    | none => d0
  let d2 := (selectAll (tagClass "div" "document-metadata-item") doc_soup).foldl
    applyMetadataItem d1
  let d3 := match selectOne (tagClass "div" "document-ementa") doc_soup with
    | some el => { d2 with ementa := getTextStrip el }
    | none => d2
  let d4 := match selectOne (tagClass "div" "document-decisao") doc_soup with
    | some el => { d3 with decisao := getTextStrip el }
    | none => d3
  match selectOne (tagClass "div" "document-partes") doc_soup with
  | some partesEl =>
    let partes_items := selectAll (tagClass "div" "document-parte-item") partesEl
    { d4 with partes := partes_items.foldl applyParteItem [] }
  | none => d4

/-- `result_item.select_one("h4.search-result-title a")`
(`sem_smolagents.py` line 164). -/
def detailLinkOf (result_item : Node) : Option Node :=
  selectRelOne (tagClass "h4" "search-result-title") (isTag "a") result_item

/-- `STFScraper.obter_detalhes_processo` after a successful search request:
the search-results page decides the fallback; the detail page is extracted
unconditionally. -/
def obterDetalhesProcesso (searchSoup : Node) (docOf : String → Node)
    (numero_processo : String) : DetalhesOutcome :=
  match selectOne (tagClass "div" "search-result-item") searchSoup with
  | none => .fallbackProc numero_processo
  | some result_item =>
    match detailLinkOf result_item with
    | none => .fallbackProc numero_processo
    | some link_elem =>
      let documento_url := BASE_URL ++ attrD link_elem "href"
      .ok (extractDetalhes (docOf documento_url) numero_processo documento_url)

/-! ## Concrete documents used by the witnesses and counterexamples -/

def fxAnchor : Node :=
  .elem "a" [("href", "/pages/doc1")] (nodeListOf [.text "ADPF 54 anencefalia"])

def fxTitle : Node :=
  .elem "h4" [("class", "search-result-title")] (nodeListOf [fxAnchor])

def fxMetadata : Node :=
  .elem "div" [("class", "search-result-metadata")] (nodeListOf
    [.elem "span" [] (nodeListOf [.text "Relator: Min. Marco"]),
     .elem "span" [] (nodeListOf [.text "Julgamento: 12/04/2012"])])

def fxItemGood : Node :=
  .elem "div" [("class", "search-result-item")] (nodeListOf
    [fxTitle, fxMetadata,
     .elem "div" [("class", "search-result-text")] (nodeListOf [.text "Ementa curta"])])

/-- The record the `STFScraper` loop produces from `fxItemGood`. -/
def fxRecGood : Resultado :=
  { titulo := "ADPF 54 anencefalia", numero_processo := "ADPF 54",
    relator := "Min. Marco", data_julgamento := "12/04/2012",
    ementa := "Ementa curta",
    link := "https://jurisprudencia.stf.jus.br/pages/doc1" }

/-- A result item whose title heading is absent. -/
def fxItemNoTitle : Node :=
  .elem "div" [("class", "search-result-item")] (nodeListOf
    [.elem "div" [("class", "search-result-text")] (nodeListOf [.text "sem titulo"])])

/-- A result item whose anchor carries no `href` attribute. -/
def fxItemNoHref : Node :=
  .elem "div" [("class", "search-result-item")] (nodeListOf
    [.elem "h4" [("class", "search-result-title")] (nodeListOf
      [.elem "a" [] (nodeListOf [.text "HC 84025 caso"])])])

def fxSoupGood : Node :=
  .elem "html" [] (nodeListOf [.elem "body" [] (nodeListOf [fxItemGood])])

/-- A page with zero structural result items. -/
def fxSoupEmpty : Node :=
  .elem "html" [] (nodeListOf [.elem "body" [] (nodeListOf [.text "nada"])])

/-- A search-results page for the detail lookup holding one item with a
title link. -/
def fxDetailSearchSoup : Node :=
  .elem "html" [] (nodeListOf
    [.elem "div" [("class", "search-result-item")] (nodeListOf
      [.elem "h4" [("class", "search-result-title")] (nodeListOf
        [.elem "a" [("href", "/pages/doc9")] (nodeListOf [.text "HC 123"])])])])

/-- A detail page lacking the detail containers altogether. -/
def fxEmptyDetailDoc : Node :=
  .elem "html" [] (nodeListOf [.elem "body" [] (nodeListOf [.text "pagina vazia"])])

/-- The extractor bundle with a raising summary block: identical to
`semExtractors` except that extracting the summary raises on the items
whose summary text reads "Ementa curta" (the text of `fxItemGood`). -/
def throwingEmentaExt : OptExt :=
  { semExtractors with
    ementa := fun it =>
      if rawEmentaOf it = "Ementa curta" then .error () else .ok (rawEmentaOf it) }

/-! ## Loop lemmas -/

theorem processLoop_eq_filterMap (cap : Nat) (ext : OptExt) (l : List Node) :
    processLoop cap ext l = l.filterMap (processItemCaught cap ext) := by
  induction l with
  | nil => rfl
  | cons item rest ih =>
    simp only [processLoop, List.filterMap_cons]
    cases processItemCaught cap ext item <;> simp [ih]

/-- Membership in the loop output comes from a single item of the input. -/
theorem mem_processLoop (cap : Nat) (ext : OptExt) (l : List Node) (r : Resultado)
    (h : r ∈ processLoop cap ext l) :
    ∃ it, it ∈ l ∧ processItemCaught cap ext it = some r := by
  rw [processLoop_eq_filterMap] at h
  exact List.mem_filterMap.mp h

/-- Every extraction block of the bundle returns a value (none raises). -/
def TotalExt (ext : OptExt) : Prop :=
  (∀ t, ∃ v, ext.numero t = .ok v) ∧ (∀ it, ∃ v, ext.relator it = .ok v) ∧
    (∀ it, ∃ v, ext.dataJulgamento it = .ok v) ∧ (∀ it, ∃ v, ext.ementa it = .ok v)

theorem semExtractors_total : TotalExt semExtractors :=
  ⟨fun t => ⟨extractDocket t, rfl⟩, fun _ => ⟨_, rfl⟩, fun _ => ⟨_, rfl⟩,
   fun it => ⟨rawEmentaOf it, rfl⟩⟩

theorem exemploExtractors_total : TotalExt exemploExtractors :=
  ⟨fun t => ⟨extractDocket t, rfl⟩, fun _ => ⟨_, rfl⟩, fun _ => ⟨_, rfl⟩,
   fun it => ⟨rawEmentaOf it, rfl⟩⟩

/-- The shape of any record the loop body emits. -/
theorem processItemCaught_some_shape (cap : Nat) (ext : OptExt) (it : Node) (r : Resultado)
    (h : processItemCaught cap ext it = some r) :
    ∃ tEl lEl n rel dj em, titleLinkOf it = some (tEl, lEl) ∧
      ext.numero (getTextStrip tEl) = .ok n ∧ ext.relator it = .ok rel ∧
      ext.dataJulgamento it = .ok dj ∧ ext.ementa it = .ok em ∧
      r = { titulo := getTextStrip tEl, numero_processo := n, relator := rel,
            data_julgamento := dj, ementa := truncateEmenta cap em,
            link := BASE_URL ++ attrD lEl "href" } := by
  cases htl : titleLinkOf it with
  | none => simp [processItemCaught, processItem, htl] at h
  | some pr =>
    obtain ⟨tEl, lEl⟩ := pr
    cases hn : ext.numero (getTextStrip tEl) with
    | error e => simp [processItemCaught, processItem, htl, hn] at h
    | ok n =>
      cases hr : ext.relator it with
      | error e => simp [processItemCaught, processItem, htl, hn, hr] at h
      | ok rel =>
        cases hd : ext.dataJulgamento it with
        | error e => simp [processItemCaught, processItem, htl, hn, hr, hd] at h
        | ok dj =>
          cases he : ext.ementa it with
          | error e => simp [processItemCaught, processItem, htl, hn, hr, hd, he] at h
          | ok em =>
            simp [processItemCaught, processItem, htl, hn, hr, hd, he] at h
            exact ⟨tEl, lEl, n, rel, dj, em, by first | exact htl | rfl,
              by first | exact hn | rfl, by first | exact hr | rfl,
              by first | exact hd | rfl, by first | exact he | rfl, h.symm⟩

/-- Conversely, resolved title and link and returning extraction blocks
produce exactly that record. -/
theorem processItemCaught_build (cap : Nat) (ext : OptExt) (it tEl lEl : Node)
    (n rel dj em : String) (htl : titleLinkOf it = some (tEl, lEl))
    (hn : ext.numero (getTextStrip tEl) = .ok n) (hr : ext.relator it = .ok rel)
    (hd : ext.dataJulgamento it = .ok dj) (he : ext.ementa it = .ok em) :
    processItemCaught cap ext it =
      some { titulo := getTextStrip tEl, numero_processo := n, relator := rel,
             data_julgamento := dj, ementa := truncateEmenta cap em,
             link := BASE_URL ++ attrD lEl "href" } := by
  simp [processItemCaught, processItem, htl, hn, hr, hd, he]

/-- Claim C2: a record is emitted for a result item exactly when both its
title element and its link anchor resolve; an item missing either is
skipped entirely, leaving the other records of the other items unchanged, while the
optional fields (docket number, reporting justice, judgment date, summary)
degrade to the empty string without rejecting the record. -/
theorem record_emitted_iff_title_link :
    (∀ cap ext it, TotalExt ext →
      (processItemCaught cap ext it).isSome = (titleLinkOf it).isSome) ∧
    TotalExt semExtractors ∧ TotalExt exemploExtractors ∧
    (∀ cap ext l1 l2 bad, titleLinkOf bad = none →
      processLoop cap ext (l1 ++ bad :: l2) =
        processLoop cap ext l1 ++ processLoop cap ext l2) ∧
    (∀ it tEl lEl, titleLinkOf it = some (tEl, lEl) →
      ∃ r, processItemCaught 500 semExtractors it = some r ∧
        (relatorElemOf it = none → r.relator = "") ∧
        (dataElemOf it = none → r.data_julgamento = "") ∧
        (ementaElemOf it = none → r.ementa = "")) := by
  refine ⟨?_, semExtractors_total, exemploExtractors_total, ?_, ?_⟩
  · intro cap ext it htot
    cases htl : titleLinkOf it with
    | none => simp [processItemCaught, processItem, htl]
    | some pr =>
      obtain ⟨tEl, lEl⟩ := pr
      obtain ⟨h1, h2, h3, h4⟩ := htot
      obtain ⟨v1, hv1⟩ := h1 (getTextStrip tEl)
      obtain ⟨v2, hv2⟩ := h2 it
      obtain ⟨v3, hv3⟩ := h3 it
      obtain ⟨v4, hv4⟩ := h4 it
      simp [processItemCaught, processItem, htl, hv1, hv2, hv3, hv4]
  · intro cap ext l1 l2 bad hbad
    have hnone : processItemCaught cap ext bad = none := by
      simp [processItemCaught, processItem, hbad]
    simp [processLoop_eq_filterMap, List.filterMap_append, List.filterMap_cons, hnone]
  · intro it tEl lEl htl
    refine ⟨_, processItemCaught_build 500 semExtractors it tEl lEl _ _ _ _ htl rfl rfl rfl rfl,
      ?_, ?_, ?_⟩
    · intro hnone
      simp [semExtractors, hnone]
    · intro hnone
      simp [semExtractors, hnone]
    · intro hnone
      simp [semExtractors, rawEmentaOf, ementaElemOf] at hnone ⊢
      simp [hnone, truncateEmenta, pyTake]

/-- Witness for C2 at concrete items: an item lacking its title heading is
dropped, the neighbouring records of the other items unaffected. -/
theorem record_emitted_iff_title_link_witness :
    processLoop 500 semExtractors ([fxItemGood] ++ fxItemNoTitle :: [fxItemGood]) =
      processLoop 500 semExtractors [fxItemGood] ++ processLoop 500 semExtractors [fxItemGood] :=
  record_emitted_iff_title_link.2.2.2.1 500 semExtractors [fxItemGood] [fxItemGood]
    fxItemNoTitle rfl

/-- Claim C3: the emitted summary never exceeds the cap plus the marker
length; a source summary of at most the cap (the boundary included) is kept
verbatim; a strictly longer one is cut at the cap with the marker appended;
and the summary field of every record either loop emits is exactly the
truncation of the raw summary of the item text at that cap of that caller (500 or
300). -/
theorem ementa_truncation_spec (cap : Nat) (s : String) :
    (truncateEmenta cap s).length ≤ cap + "...".length ∧
    (s.length ≤ cap → truncateEmenta cap s = s) ∧
    (cap < s.length → truncateEmenta cap s = pyTake s cap ++ "...") ∧
    (∀ it r, processItemCaught 500 semExtractors it = some r →
      r.ementa = truncateEmenta 500 (rawEmentaOf it)) ∧
    (∀ it r, processItemCaught 300 exemploExtractors it = some r →
      r.ementa = truncateEmenta 300 (rawEmentaOf it)) := by
  refine ⟨?_, ?_, ?_, ?_, ?_⟩
  · unfold truncateEmenta
    split
    · rename_i hlt
      have : (pyTake s cap).length ≤ cap := by
        show (s.data.take cap).length ≤ cap
        simp [List.length_take]
      calc (pyTake s cap ++ "...").length = (pyTake s cap).length + "...".length := by
            simp [String.length_append]
        _ ≤ cap + "...".length := by omega
    · rename_i hge
      have : s.length ≤ cap := by omega
      omega
  · intro hle
    simp [truncateEmenta]
    omega
  · intro hlt
    simp [truncateEmenta, hlt]
  · intro it r h
    obtain ⟨tEl, lEl, n, rel, dj, em, htl, hn, hr, hd, he, hrec⟩ :=
      processItemCaught_some_shape 500 semExtractors it r h
    have hem : em = rawEmentaOf it := by
      simpa [semExtractors] using he.symm
    simp [hrec, hem]
  · intro it r h
    obtain ⟨tEl, lEl, n, rel, dj, em, htl, hn, hr, hd, he, hrec⟩ :=
      processItemCaught_some_shape 300 exemploExtractors it r h
    have hem : em = rawEmentaOf it := by
      simpa [exemploExtractors] using he.symm
    simp [hrec, hem]

/-- Witness for C3 at a concrete cap and summary longer than the cap. -/
theorem ementa_truncation_spec_witness :
    truncateEmenta 5 "1234567" = pyTake "1234567" 5 ++ "..." :=
  (ementa_truncation_spec 5 "1234567").2.2.1 (by decide)

/-- Claim C4: a page with zero structural result-item containers yields the
empty record sequence from the extraction itself (a value, not an error);
the `STFScraper` wrapper is what then maps that empty result to a fallback
invocation. -/
theorem empty_items_empty_sequence (soup : Node) (query : String) (n : Nat)
    (h : selectItems soup = []) :
    extractSearchResultsSem soup n = [] ∧ extractSearchResultsExemplo soup n = [] ∧
    buscarJurisprudencia soup query n = .fallbackSearch query n := by
  refine ⟨?_, ?_, ?_⟩ <;>
    simp [extractSearchResultsSem, extractSearchResultsExemplo, buscarJurisprudencia,
      h, processLoop]

/-- Witness for C4 on a concrete itemless page. -/
theorem empty_items_empty_sequence_witness :
    extractSearchResultsSem fxSoupEmpty 5 = [] ∧
    extractSearchResultsExemplo fxSoupEmpty 5 = [] ∧
    buscarJurisprudencia fxSoupEmpty "aborto anencefalia" 5 =
      .fallbackSearch "aborto anencefalia" 5 :=
  empty_items_empty_sequence fxSoupEmpty "aborto anencefalia" 5 rfl

/-- Claim C6: only the first `max_results` structural items are processed,
so the output has at most `max_results` records, and the output is exactly
the in-order filter-map of those items (document order, no reordering, no
deduplication). -/
theorem results_bounded_ordered (soup : Node) (n : Nat) :
    (extractSearchResultsSem soup n).length ≤ n ∧
    extractSearchResultsSem soup n =
      ((selectItems soup).take n).filterMap (processItemCaught 500 semExtractors) ∧
    (extractSearchResultsExemplo soup n).length ≤ n ∧
    extractSearchResultsExemplo soup n =
      ((selectItems soup).take n).filterMap (processItemCaught 300 exemploExtractors) := by
  have e1 := processLoop_eq_filterMap 500 semExtractors ((selectItems soup).take n)
  have e2 := processLoop_eq_filterMap 300 exemploExtractors ((selectItems soup).take n)
  refine ⟨?_, e1, ?_, e2⟩
  · calc (extractSearchResultsSem soup n).length
        ≤ ((selectItems soup).take n).length := by
          rw [extractSearchResultsSem, e1]
          exact List.length_filterMap_le _ _
      _ ≤ n := List.length_take_le _ _
  · calc (extractSearchResultsExemplo soup n).length
        ≤ ((selectItems soup).take n).length := by
          rw [extractSearchResultsExemplo, e2]
          exact List.length_filterMap_le _ _
      _ ≤ n := List.length_take_le _ _

/-- The docket-number field of any emitted record is the extraction applied
to that title of that record itself. -/
theorem docket_of_emitted (cap : Nat) (ext : OptExt) (it : Node) (r : Resultado)
    (hnum : ext.numero = fun t => Except.ok (extractDocket t))
    (h : processItemCaught cap ext it = some r) :
    extractDocket r.titulo = r.numero_processo := by
  obtain ⟨tEl, lEl, n, rel, dj, em, htl, hn, hr, hd, he, hrec⟩ :=
    processItemCaught_some_shape cap ext it r h
  rw [hnum] at hn
  have : n = extractDocket (getTextStrip tEl) := by
    simpa using hn.symm
  simp [hrec, this]

/-- Claim C8: docket-number extraction is idempotent over emitted records —
re-running the pattern extraction on the title of the record gives back the
docket number of the record, for both scraper variants. -/
theorem docket_extraction_idempotent (soup : Node) (n : Nat) (r : Resultado)
    (h : r ∈ extractSearchResultsSem soup n ∨ r ∈ extractSearchResultsExemplo soup n) :
    extractDocket r.titulo = r.numero_processo := by
  rcases h with h | h
  · obtain ⟨it, _, hit⟩ := mem_processLoop 500 semExtractors _ r h
    exact docket_of_emitted 500 semExtractors it r rfl hit
  · obtain ⟨it, _, hit⟩ := mem_processLoop 300 exemploExtractors _ r h
    exact docket_of_emitted 300 exemploExtractors it r rfl hit

/-- Witness for C8 on a concrete emitted record. -/
theorem docket_extraction_idempotent_witness :
    extractDocket fxRecGood.titulo = fxRecGood.numero_processo :=
  docket_extraction_idempotent fxSoupGood 5 fxRecGood (Or.inl (by decide))

/-- Claim C9: the detail-lookup URL is exactly the search URL built from
the docket number wrapped in literal double quotes (encoded with it) with
the page size forced to 1 — same base collection, synonym, plural, page and
sort parameters. -/
theorem detail_url_exact_phrase_page_size_one (numero_processo : String) :
    obterDetalhesUrl numero_processo =
      searchUrlOf ("\"" ++ numero_processo ++ "\"") 1 := by
  unfold obterDetalhesUrl searchUrlOf
  exact congrArg (fun p => p ++ urlQuote ("\"" ++ numero_processo ++ "\"")) (by decide)

/-- Claim C10: every record emitted for an item whose title and anchor
resolve carries `link = BASE_URL ++ href`; with the anchor present but the
`href` attribute absent the record is still emitted and its link is exactly
the (nonempty) base URL. -/
theorem link_base_plus_href (it tEl lEl : Node)
    (h : titleLinkOf it = some (tEl, lEl)) :
    (∃ r, processItemCaught 500 semExtractors it = some r ∧
      r.link = BASE_URL ++ attrD lEl "href" ∧
      (attrOf lEl "href" = none → r.link = BASE_URL) ∧ r.link ≠ "") ∧
    (∃ r, processItemCaught 300 exemploExtractors it = some r ∧
      r.link = BASE_URL ++ attrD lEl "href") := by
  have hne : BASE_URL ++ attrD lEl "href" ≠ "" := by
    intro he
    have := congrArg String.length he
    rw [String.length_append] at this
    have hb : BASE_URL.length = 33 := rfl
    simp [hb] at this
  constructor
  · refine ⟨_, processItemCaught_build 500 semExtractors it tEl lEl _ _ _ _ h rfl rfl rfl rfl,
      rfl, ?_, hne⟩
    intro hnone
    simp [attrD, hnone]
  · exact ⟨_, processItemCaught_build 300 exemploExtractors it tEl lEl _ _ _ _ h rfl rfl rfl rfl,
      rfl⟩

/-- Witness for C10 on a concrete item whose anchor has no `href`. -/
theorem link_base_plus_href_witness :
    (∃ r, processItemCaught 500 semExtractors fxItemNoHref = some r ∧
      r.link = BASE_URL ++ attrD (.elem "a" [] (nodeListOf [.text "HC 84025 caso"])) "href" ∧
      (attrOf (.elem "a" [] (nodeListOf [.text "HC 84025 caso"])) "href" = none →
        r.link = BASE_URL) ∧ r.link ≠ "") ∧
    (∃ r, processItemCaught 300 exemploExtractors fxItemNoHref = some r ∧
      r.link = BASE_URL ++ attrD (.elem "a" [] (nodeListOf [.text "HC 84025 caso"])) "href") :=
  link_base_plus_href fxItemNoHref
    (.elem "h4" [("class", "search-result-title")] (nodeListOf
      [.elem "a" [] (nodeListOf [.text "HC 84025 caso"])]))
    (.elem "a" [] (nodeListOf [.text "HC 84025 caso"])) rfl

/-- Counterexample to claim C1: on a detail page with no recognizable
container at all (no root, no title, no metadata), `obter_detalhes_processo`
does not signal a hard miss — it returns an `ok` record whose extracted
fields are all empty. The only fallback checks in the code inspect the
intermediate search-results page, never the detail page. -/
theorem detail_root_unchecked_cex :
    obterDetalhesProcesso fxDetailSearchSoup (fun _ => fxEmptyDetailDoc) "HC 123" =
      .ok { numero_processo := "HC 123", titulo := "", relator := "",
            data_julgamento := "", data_publicacao := "", orgao_julgador := "",
            ementa := "", decisao := "", partes := [],
            link := "https://jurisprudencia.stf.jus.br/pages/doc9" } ∧
    obterDetalhesProcesso fxDetailSearchSoup (fun _ => fxEmptyDetailDoc) "HC 123" ≠
      .fallbackProc "HC 123" :=
  ⟨rfl, by decide⟩

/-- Claim C1 as amended: the hard miss that sends the caller to the
fallback is decided on the search-results page of the docket lookup — no
result-item container, or no title link inside it; once a link is found the
detail page is extracted unconditionally into an `ok` record (a detail page
without recognized containers yields a record with empty extracted
fields, as the counterexample shows). -/
theorem obter_detalhes_fallback_structure (searchSoup : Node)
    (docOf : String → Node) (numero_processo : String) :
    (selectOne (tagClass "div" "search-result-item") searchSoup = none →
      obterDetalhesProcesso searchSoup docOf numero_processo =
        .fallbackProc numero_processo) ∧
    (∀ item, selectOne (tagClass "div" "search-result-item") searchSoup = some item →
      detailLinkOf item = none →
      obterDetalhesProcesso searchSoup docOf numero_processo =
        .fallbackProc numero_processo) ∧
    (∀ item link_elem,
      selectOne (tagClass "div" "search-result-item") searchSoup = some item →
      detailLinkOf item = some link_elem →
      obterDetalhesProcesso searchSoup docOf numero_processo =
        .ok (extractDetalhes (docOf (BASE_URL ++ attrD link_elem "href"))
          numero_processo (BASE_URL ++ attrD link_elem "href"))) := by
  refine ⟨?_, ?_, ?_⟩
  · intro h
    simp [obterDetalhesProcesso, h]
  · intro item h1 h2
    simp [obterDetalhesProcesso, h1, h2]
  · intro item link_elem h1 h2
    simp [obterDetalhesProcesso, h1, h2]

/-- Witness for the amended C1: a search page with no result item falls
back. -/
theorem obter_detalhes_fallback_structure_witness :
    obterDetalhesProcesso fxSoupEmpty (fun _ => fxEmptyDetailDoc) "RE 1" =
      .fallbackProc "RE 1" :=
  (obter_detalhes_fallback_structure fxSoupEmpty (fun _ => fxEmptyDetailDoc) "RE 1").1 rfl

/-- Counterexample to claim C5: `fxItemGood` resolves its title and link
and normally yields a record; when the summary extraction block raises, the
`except` clause around the whole item body drops the entire item — no
record with an empty summary is emitted. -/
theorem field_throw_skips_item_cex :
    processLoop 500 throwingEmentaExt [fxItemGood] = [] ∧
    (titleLinkOf fxItemGood).isSome = true ∧
    processLoop 500 semExtractors [fxItemGood] = [fxRecGood] :=
  ⟨rfl, rfl, rfl⟩

/-- Claim C5 as amended: an exception while extracting an optional field of
one item skips that whole item (its record is not emitted, because the
`try` block wraps the entire item body), while all other items are
processed exactly as before and the batch is never aborted; only a
non-raising miss (the optional element simply absent) leaves the field
empty with the record still emitted. -/
theorem item_failure_isolated (cap : Nat) (ext : OptExt) (l1 l2 : List Node)
    (bad : Node) (h : processItem cap ext bad = .error ()) :
    processLoop cap ext (l1 ++ bad :: l2) =
      processLoop cap ext l1 ++ processLoop cap ext l2 := by
  have hnone : processItemCaught cap ext bad = none := by
    simp [processItemCaught, h]
  simp [processLoop_eq_filterMap, List.filterMap_append, List.filterMap_cons, hnone]

/-- Witness for the amended C5 on concrete lists around a raising item. -/
theorem item_failure_isolated_witness :
    processLoop 500 throwingEmentaExt ([fxItemNoHref] ++ fxItemGood :: [fxItemNoHref]) =
      processLoop 500 throwingEmentaExt [fxItemNoHref] ++
        processLoop 500 throwingEmentaExt [fxItemNoHref] :=
  item_failure_isolated 500 throwingEmentaExt [fxItemNoHref] [fxItemNoHref] fxItemGood rfl

/-! ## Relating the docket matcher to the declarative pattern -/

theorem tryLen_eq_some {k : Nat} {cs r : List Char} (h : tryLen k cs = some r) :
    ∃ u c d post, cs = u ++ c :: (d ++ post) ∧ u.length = k ∧
      (∀ x ∈ u, pyIsUpper x) ∧ pyIsSpace c ∧ d ≠ [] ∧ (∀ x ∈ d, pyIsDigit x) ∧
      r = u ++ c :: d := by
  simp only [tryLen] at h
  split at h
  · rename_i hcond
    split at h
    · exact absurd h (by simp)
    · rename_i c rest hdrop
      split at h
      · rename_i hsp
        split at h
        · exact absurd h (by simp)
        · rename_i hne
          injection h with h
          obtain ⟨hlen, hall⟩ : (cs.take k).length = k ∧ (cs.take k).all pyIsUpper := by
            simpa [Bool.and_eq_true] using hcond
          refine ⟨cs.take k, c, rest.takeWhile pyIsDigit, rest.dropWhile pyIsDigit,
            ?_, hlen, ?_, hsp, ?_, ?_, h.symm⟩
          · conv_lhs => rw [← List.take_append_drop k cs]
            rw [hdrop, List.takeWhile_append_dropWhile]
          · intro x hx
            exact List.all_eq_true.mp hall x hx
          · intro heq
            rw [heq] at hne
            exact hne (by simp)
          · intro x hx
            exact List.mem_takeWhile_imp hx
      · exact absurd h (by simp)
  · exact absurd h (by simp)

theorem tryLen_isSome {k : Nat} {u d post : List Char} {c : Char}
    (hlen : u.length = k) (hu : ∀ x ∈ u, pyIsUpper x) (hsp : pyIsSpace c)
    (hd : d ≠ []) (hdig : ∀ x ∈ d, pyIsDigit x) :
    (tryLen k (u ++ c :: (d ++ post))).isSome = true := by
  have ht : (u ++ c :: (d ++ post)).take k = u := List.take_left' hlen
  have hdr : (u ++ c :: (d ++ post)).drop k = c :: (d ++ post) := List.drop_left' hlen
  simp only [tryLen, ht, hdr]
  rw [if_pos]
  · rw [if_pos hsp]
    cases d with
    | nil => exact absurd rfl hd
    | cons x d2 =>
      simp only [List.cons_append]
      rw [List.takeWhile_cons_of_pos (hdig x (by simp))]
      simp
  · simp [hlen, List.all_eq_true]
    exact hu

theorem tryMatchAt_isSome_of {cs : List Char} (k : Nat) (hk2 : 2 ≤ k) (hk4 : k ≤ 4)
    (h : (tryLen k cs).isSome = true) : (tryMatchAt cs).isSome = true := by
  unfold tryMatchAt
  cases h4 : tryLen 4 cs with
  | some r => simp
  | none =>
    cases h3 : tryLen 3 cs with
    | some r => simp
    | none =>
      interval_cases k
      · simpa using h
      · rw [h3] at h; simp at h
      · rw [h4] at h; simp at h

theorem tryMatchAt_some_shape {cs r : List Char} (h : tryMatchAt cs = some r) :
    ∃ k m, docketMatchGroups cs 0 k m ∧ r ≠ [] ∧ r = cs.take (k + 1 + m) := by
  have core : ∀ k, 2 ≤ k → k ≤ 4 → tryLen k cs = some r →
      ∃ k2 m, docketMatchGroups cs 0 k2 m ∧ r ≠ [] ∧ r = cs.take (k2 + 1 + m) := by
    intro k hk2 hk4 hk
    obtain ⟨u, c, d, post, hcs, hlen, hu, hsp, hd, hdig, hr⟩ := tryLen_eq_some hk
    have hdlen : 1 ≤ d.length := by
      cases d with
      | nil => exact absurd rfl hd
      | cons x d2 => simp
    refine ⟨k, d.length, ⟨[], u, c, d, post, by simpa using hcs, rfl, hlen, rfl,
      hk2, hk4, hdlen, hu, hsp, hdig⟩, by simp [hr], ?_⟩
    have hfull : cs = (u ++ c :: d) ++ post := by
      rw [hcs]
      simp
    have hflen : (u ++ c :: d).length = k + 1 + d.length := by
      simp [hlen]
      omega
    rw [hr, hfull, List.take_left' hflen]
  unfold tryMatchAt at h
  cases h4 : tryLen 4 cs with
  | some r0 =>
    rw [h4] at h
    simp at h
    exact core 4 (by omega) (by omega) (by rw [h4, h])
  | none =>
    rw [h4] at h
    cases h3 : tryLen 3 cs with
    | some r0 =>
      rw [h3] at h
      simp at h
      exact core 3 (by omega) (by omega) (by rw [h3, h])
    | none =>
      rw [h3] at h
      exact core 2 (by omega) (by omega) h

theorem tryMatchAt_isSome_iff (cs : List Char) :
    (tryMatchAt cs).isSome = true ↔ ∃ k m, docketMatchGroups cs 0 k m := by
  constructor
  · intro h
    obtain ⟨r, hr⟩ := Option.isSome_iff_exists.mp h
    obtain ⟨k, m, hg, _, _⟩ := tryMatchAt_some_shape hr
    exact ⟨k, m, hg⟩
  · rintro ⟨k, m, pre, u, c, d, post, hcs, hpre, hlen, hdlen, hk2, hk4, hm, hu, hsp, hdig⟩
    have hpre0 : pre = [] := List.length_eq_zero.mp hpre
    subst hpre0
    simp only [List.nil_append] at hcs
    subst hcs
    exact tryMatchAt_isSome_of k hk2 hk4
      (tryLen_isSome hlen hu hsp (by rintro rfl; simp at hdlen; omega) hdig)

theorem docketMatchGroups_nil (i k m : Nat) : ¬ docketMatchGroups [] i k m := by
  rintro ⟨pre, u, c, d, post, hcs, _, _, _, _, _, _, _, _, _⟩
  have := congrArg List.length hcs
  simp at this
  omega

theorem docketMatchGroups_shift {a : Char} {cs : List Char} {i k m : Nat} :
    docketMatchGroups (a :: cs) (i + 1) k m ↔ docketMatchGroups cs i k m := by
  constructor
  · rintro ⟨pre, u, c, d, post, hcs, hpre, hlen, hdlen, hk2, hk4, hm, hu, hsp, hdig⟩
    cases pre with
    | nil => simp at hpre
    | cons p0 pre2 =>
      simp only [List.cons_append] at hcs
      injection hcs with h1 h2
      exact ⟨pre2, u, c, d, post, h2, by simpa using hpre, hlen, hdlen,
        hk2, hk4, hm, hu, hsp, hdig⟩
  · rintro ⟨pre, u, c, d, post, hcs, hpre, hlen, hdlen, hk2, hk4, hm, hu, hsp, hdig⟩
    exact ⟨a :: pre, u, c, d, post, by rw [hcs]; simp, by simp [hpre], hlen, hdlen,
      hk2, hk4, hm, hu, hsp, hdig⟩

/-- The full `re.search` specification of the docket matcher: a `none`
result means no position matches; a `some` result is the match at the
leftmost matching position. -/
theorem searchDocket_spec (cs : List Char) :
    (searchDocket cs = none → ∀ i k m, ¬ docketMatchGroups cs i k m) ∧
    (∀ r, searchDocket cs = some r →
      ∃ i k m, docketMatchGroups cs i k m ∧ r ≠ [] ∧
        r = (cs.drop i).take (k + 1 + m) ∧
        ∀ j k2 m2, j < i → ¬ docketMatchGroups cs j k2 m2) := by
  induction cs with
  | nil =>
    constructor
    · intro _ i k m
      exact docketMatchGroups_nil i k m
    · intro r h
      simp [searchDocket] at h
  | cons a rest ih =>
    cases hma : tryMatchAt (a :: rest) with
    | some r0 =>
      constructor
      · intro hnone
        simp [searchDocket, hma] at hnone
      · intro r h
        have hr0 : r0 = r := by simpa [searchDocket, hma] using h
        subst hr0
        obtain ⟨k, m, hg, hne, hr⟩ := tryMatchAt_some_shape hma
        exact ⟨0, k, m, hg, hne, by simpa using hr,
          fun j k2 m2 hj => absurd hj (Nat.not_lt_zero j)⟩
    | none =>
      have h0 : ∀ k m, ¬ docketMatchGroups (a :: rest) 0 k m := by
        intro k m hm
        have := (tryMatchAt_isSome_iff (a :: rest)).mpr ⟨k, m, hm⟩
        rw [hma] at this
        simp at this
      constructor
      · intro hnone i k m
        have hrest : searchDocket rest = none := by
          simpa [searchDocket, hma] using hnone
        cases i with
        | zero => exact h0 k m
        | succ j =>
          intro hm
          exact ih.1 hrest j k m (docketMatchGroups_shift.mp hm)
      · intro r h
        have hrest : searchDocket rest = some r := by
          simpa [searchDocket, hma] using h
        obtain ⟨i, k, m, hg, hne, hr, hmin⟩ := ih.2 r hrest
        refine ⟨i + 1, k, m, docketMatchGroups_shift.mpr hg, hne, by simpa using hr, ?_⟩
        intro j k2 m2 hj
        cases j with
        | zero => exact h0 k2 m2
        | succ j2 =>
          intro hm
          exact hmin j2 k2 m2 (by omega) (docketMatchGroups_shift.mp hm)

/-- Claim C7: the docket number is the first (leftmost) occurrence of the
pattern "2-4 consecutive uppercase ASCII letters, one whitespace character,
one or more digits" in the title, and the empty string exactly when the
title contains no such occurrence. -/
theorem docket_first_match_spec (titulo : String) :
    (extractDocket titulo = "" ↔ ∀ i k m, ¬ docketMatchGroups titulo.data i k m) ∧
    (extractDocket titulo ≠ "" →
      ∃ i k m, docketMatchGroups titulo.data i k m ∧
        extractDocket titulo = String.mk ((titulo.data.drop i).take (k + 1 + m)) ∧
        ∀ j k2 m2, j < i → ¬ docketMatchGroups titulo.data j k2 m2) := by
  obtain ⟨hn, hs⟩ := searchDocket_spec titulo.data
  constructor
  · constructor
    · intro he
      cases hsd : searchDocket titulo.data with
      | none => exact hn hsd
      | some r =>
        obtain ⟨i, k, m, hg, hne, hr, hmin⟩ := hs r hsd
        exfalso
        apply hne
        have hmk : String.mk r = "" := by
          simpa [extractDocket, hsd] using he
        simpa using congrArg String.data hmk
    · intro hall
      cases hsd : searchDocket titulo.data with
      | none => simp [extractDocket, hsd]
      | some r =>
        obtain ⟨i, k, m, hg, _, _, _⟩ := hs r hsd
        exact absurd hg (hall i k m)
  · intro hne
    cases hsd : searchDocket titulo.data with
    | none => simp [extractDocket, hsd] at hne
    | some r =>
      obtain ⟨i, k, m, hg, _, hr, hmin⟩ := hs r hsd
      exact ⟨i, k, m, hg, by simp [extractDocket, hsd, hr], hmin⟩

/-- Witness for C7: on a concrete title the extraction is nonempty and sits
at the leftmost matching position. -/
theorem docket_first_match_spec_witness :
    extractDocket "ADPF 54 anencefalia" ≠ "" ∧
    ∃ i k m, docketMatchGroups "ADPF 54 anencefalia".data i k m ∧
      extractDocket "ADPF 54 anencefalia" =
        String.mk (("ADPF 54 anencefalia".data.drop i).take (k + 1 + m)) ∧
      ∀ j k2 m2, j < i → ¬ docketMatchGroups "ADPF 54 anencefalia".data j k2 m2 :=
  ⟨by decide, (docket_first_match_spec "ADPF 54 anencefalia").2 (by decide)⟩
